import Mathlib

/-!
Shallow embedding of `03-parcels-attach-blocks-network-nodes.ipynb`.

The notebook attaches to each parcel (a) a census block id via a left merge
on `parcel_id` and (b) the id of the nearest network node, computed twice:
once with `scipy.spatial.cKDTree` on raw (x, y) coordinates (planar
Euclidean) and once with `sklearn.neighbors.BallTree` on
`np.deg2rad(df[['y', 'x']])` with `metric='haversine'` (geodesic).
Both library calls are exact k=1 nearest-neighbor queries; we embed them as
an argmin over the node list, breaking distance ties by the first position
in the array handed to the tree constructor, which is how the result index
of `tree.query` is mapped back through `nodes.iloc[idx].index`.
-/

namespace ParcelsAttach

/-- A network node row: `osmid` index plus `x`/`y` coordinate columns,
as loaded from `bay_area_full_strongly_nodes.csv` (cell 5). -/
structure NodeRecord where
  osmid : ℤ
  x : ℚ
  y : ℚ
  deriving DecidableEq, Repr

/-- Squared Euclidean distance on raw coordinate pairs; `cKDTree` minimizes
its square root, and the square root is minimized exactly where the square
is. -/
def sqDist (p q : ℚ × ℚ) : ℚ :=
  (p.1 - q.1) ^ 2 + (p.2 - q.2) ^ 2

/-- The Euclidean distance reported by `tree.query` (cell 14). -/
noncomputable def euclidDist (p q : ℚ × ℚ) : ℝ :=
  Real.sqrt ((sqDist p q : ℚ) : ℝ)

/-- Position and value of the first minimal element of a list: the semantic
content of an exact k=1 nearest-neighbor query over the stored array. -/
def minPV {β : Type} [LinearOrder β] : List β → Option (ℕ × β)
  | [] => none
  | b :: bs =>
    match minPV bs with
    | none => some (0, b)
    | some (j, v) => if v < b then some (j + 1, v) else some (0, b)

theorem minPV_eq_none_iff {β : Type} [LinearOrder β] (l : List β) :
    minPV l = none ↔ l = [] := by
  cases l with
  | nil => simp [minPV]
  | cons b bs =>
    simp only [minPV]
    cases h : minPV bs with
    | none => simp
    | some jv =>
      obtain ⟨j, v⟩ := jv
      by_cases hv : v < b <;> simp [hv]

theorem minPV_spec {β : Type} [LinearOrder β] (l : List β) (h : l ≠ []) :
    ∃ j v, minPV l = some (j, v) ∧ l[j]? = some v ∧ ∀ x ∈ l, v ≤ x := by
  induction l with
  | nil => exact absurd rfl h
  | cons b bs ih =>
    by_cases hbs : bs = []
    · subst hbs
      refine ⟨0, b, by simp [minPV], by simp, ?_⟩
      intro x hx
      simp at hx
      simp [hx]
    · obtain ⟨j, v, hmin, hget, hle⟩ := ih hbs
      by_cases hv : v < b
      · refine ⟨j + 1, v, ?_, ?_, ?_⟩
        · simp [minPV, hmin, hv]
        · simpa using hget
        · intro x hx
          rcases List.mem_cons.mp hx with hx | hx
          · exact hx ▸ le_of_lt hv
          · exact hle x hx
      · refine ⟨0, b, ?_, by simp, ?_⟩
        · simp [minPV, hmin, hv]
        · intro x hx
          rcases List.mem_cons.mp hx with hx | hx
          · exact hx ▸ le_rfl
          · exact le_trans (not_lt.mp hv) (hle x hx)

/-- Exact nearest-neighbor query over a node list with respect to a distance
function `d`, composing `tree.query(..., k=1)` (the position of the nearest
stored point) with `nodes.iloc[idx].index` (the `osmid` at that position):
the mechanism of cells 14 and 18. -/
def nearestBy {β : Type} [LinearOrder β] (d : NodeRecord → β)
    (nodes : List NodeRecord) : Option ℤ :=
  (minPV (nodes.map d)).bind fun jv => (nodes[jv.1]?).map NodeRecord.osmid

theorem minPV_map_spec {β : Type} [LinearOrder β] (d : NodeRecord → β)
    (nodes : List NodeRecord) (h : nodes ≠ []) :
    ∃ j r, nodes[j]? = some r ∧ r ∈ nodes ∧
      minPV (nodes.map d) = some (j, d r) ∧
      nearestBy d nodes = some r.osmid ∧
      ∀ m ∈ nodes, d r ≤ d m := by
  obtain ⟨j, v, hmin, hget, hle⟩ :=
    minPV_spec (nodes.map d) (by simpa using h)
  rw [List.getElem?_map] at hget
  obtain ⟨r, hr, hdr⟩ := Option.map_eq_some'.mp hget
  refine ⟨j, r, hr, List.getElem?_mem hr, hdr ▸ hmin, ?_, ?_⟩
  · simp [nearestBy, hmin, hr]
  · intro m hm
    exact hdr ▸ hle (d m) (List.mem_map_of_mem d hm)

theorem nearestBy_unique {β : Type} [LinearOrder β] (d : NodeRecord → β)
    {nodes : List NodeRecord} (n : NodeRecord) (hn : n ∈ nodes)
    (hu : ∀ m ∈ nodes, m ≠ n → d n < d m) :
    nearestBy d nodes = some n.osmid := by
  obtain ⟨j, r, hget, hrmem, hmin, hnear, hle⟩ :=
    minPV_map_spec d nodes (List.ne_nil_of_mem hn)
  by_cases hrn : r = n
  · exact hrn ▸ hnear
  · exact absurd (hle n hn) (not_le.mpr (hu r hrmem hrn))

/-- Cell 14, first component: `dist, idx = tree.query(parcels[['x','y']], k=1)`
for one centroid, carrying the squared Euclidean distance (the reported
distance is its square root). -/
def planarQuery (nodes : List NodeRecord) (q : ℚ × ℚ) : Option (ℕ × ℚ) :=
  minPV (nodes.map fun n => sqDist (n.x, n.y) q)

/-- Cell 14: the `osmid` stored into `parcels['node']` for one centroid under
the `cKDTree` (planar Euclidean) variant. -/
def planarNode (nodes : List NodeRecord) (q : ℚ × ℚ) : Option ℤ :=
  nearestBy (fun n => sqDist (n.x, n.y) q) nodes

/-- Degrees to radians, `np.deg2rad` (cell 16). -/
noncomputable def deg2rad (d : ℚ) : ℝ :=
  (d : ℝ) * Real.pi / 180

/-- Cell 16 applied to a node row: `np.deg2rad(nodes[['y', 'x']])`, i.e.
radians of (latitude, longitude). -/
noncomputable def nodeRad (n : NodeRecord) : ℝ × ℝ :=
  (deg2rad n.y, deg2rad n.x)

/-- Cell 16 applied to a parcel centroid: `np.deg2rad(parcels[['y', 'x']])`. -/
noncomputable def queryRad (q : ℚ × ℚ) : ℝ × ℝ :=
  (deg2rad q.2, deg2rad q.1)

/-- Great-circle central angle between two (latitude, longitude) pairs in
radians: the `metric='haversine'` of the `BallTree` in cell 17. -/
noncomputable def haversineDist (p q : ℝ × ℝ) : ℝ :=
  2 * Real.arcsin (Real.sqrt (Real.sin ((q.1 - p.1) / 2) ^ 2 +
    Real.cos p.1 * Real.cos q.1 * Real.sin ((q.2 - p.2) / 2) ^ 2))

/-- Straight-line distance on raw angular coordinates, the metric the spec
says the geodesic variant must NOT use. -/
noncomputable def angularEuclid (p q : ℝ × ℝ) : ℝ :=
  Real.sqrt ((q.1 - p.1) ^ 2 + (q.2 - p.2) ^ 2)

/-- Cell 18: the `osmid` stored into `parcels['node']` for one centroid under
the `BallTree` (geodesic haversine) variant. -/
noncomputable def geodesicNode (nodes : List NodeRecord) (q : ℚ × ℚ) : Option ℤ :=
  nearestBy (fun n => haversineDist (nodeRad n) (queryRad q)) nodes

/-- The metric selector of the spec: cells 13–14 implement `planar`,
cells 16–18 implement `geodesic`. -/
inductive Metric
  | planar
  | geodesic
  deriving DecidableEq, Repr

/-- Modelled from the spec: the error taxonomy (`EmptyInputError`,
`InvalidCoordinateError`) is not present in the notebook, which delegates
index construction and querying to external library calls. -/
inductive IndexError
  | emptyInput
  | invalidCoordinate
  deriving DecidableEq, Repr

/-- The static, query-only index: the chosen metric plus the node rows in the
order handed to the tree constructor (cells 13 and 17). -/
structure SpatialIndex where
  metric : Metric
  nodes : List NodeRecord
  deriving DecidableEq, Repr

/-- Modelled from the spec: index construction over the full node set, which
must fail with `EmptyInputError` on an empty node set instead of producing a
degenerate index; the notebook's `cKDTree(...)`/`BallTree(...)` calls are
external library code. -/
def buildIndex (m : Metric) (nodes : List NodeRecord) : Except IndexError SpatialIndex :=
  if nodes.isEmpty then .error .emptyInput else .ok ⟨m, nodes⟩

/-- One nearest-node query against a built index, dispatching on the metric
the index was built with. -/
noncomputable def queryNode (idx : SpatialIndex) (q : ℚ × ℚ) : Option ℤ :=
  match idx.metric with
  | .planar => planarNode idx.nodes q
  | .geodesic => geodesicNode idx.nodes q

/-- A possibly non-finite float coordinate, as a query centroid may carry. -/
inductive FCoord
  | finite (val : ℚ)
  | nan
  | posInf
  | negInf
  deriving DecidableEq, Repr

/-- Whether a coordinate is a finite numeric value. -/
def FCoord.isFinite : FCoord → Bool
  | .finite _ => true
  | _ => false

/-- Modelled from the spec: the per-batch query loop, in which a query point
with a non-finite coordinate fails with `InvalidCoordinateError` and is
excluded from the results while every other query is still answered; the
notebook's `tree.query` calls are external library code and perform no such
check. -/
noncomputable def runBatch (idx : SpatialIndex) (qs : List (ℤ × FCoord × FCoord)) :
    List (ℤ × Except IndexError ℤ) :=
  qs.map fun pq =>
    match pq with
    | (pid, .finite qx, .finite qy) =>
        (pid, match queryNode idx (qx, qy) with
              | some nid => .ok nid
              | none => .error .emptyInput)
    | (pid, _, _) => (pid, .error .invalidCoordinate)

/-- A parcel row as it enters the merge of cell 8: unique `PARCEL_ID` index
plus the centroid x/y it will expose in cell 11 (null-geometry rows were
dropped in cell 3). -/
structure Parcel where
  parcelId : ℤ
  x : ℚ
  y : ℚ
  deriving DecidableEq, Repr

/-- A row of the working `parcels` dataframe after the block merge: parcel id,
centroid coordinates, the merged `block_geoid` (null when the lookup had no
matching key), and the `node` column written by cells 14 and 18. -/
structure Row where
  parcelId : ℤ
  x : ℚ
  y : ℚ
  blockGeoid : Option String
  node : Option ℤ
  deriving DecidableEq, Repr

/-- Cell 8: `pd.merge(left=parcels, right=parcels_blocks, how='left',
left_index=True, right_index=True)`. The right index is asserted unique in
cell 4, so the left join keeps every left row once and attaches the matching
`block_geoid` when one exists. -/
def mergeBlocks (parcels : List Parcel) (lookup : List (ℤ × String)) : List Row :=
  parcels.map fun p =>
    { parcelId := p.parcelId, x := p.x, y := p.y,
      blockGeoid := (lookup.find? fun kv => kv.1 == p.parcelId).map Prod.snd,
      node := none }

/-- Cell 14: `parcels['node'] = nodes.iloc[idx].index` over the whole table. -/
def assignPlanar (nodes : List NodeRecord) (t : List Row) : List Row :=
  t.map fun r => { r with node := planarNode nodes (r.x, r.y) }

/-- Cell 18: `parcels['node'] = nodes.iloc[idx[:,0]].index` over the whole
table, overwriting the planar column. -/
noncomputable def assignGeodesic (nodes : List NodeRecord) (t : List Row) : List Row :=
  t.map fun r => { r with node := geodesicNode nodes (r.x, r.y) }

/-- Cell 20: `df_save = parcels.reset_index()[['PARCEL_ID', 'block_geoid',
'node']]` renamed to (parcel_id, block_id, node_id) and written to csv. -/
def dfSave (t : List Row) : List (ℤ × Option String × Option ℤ) :=
  t.map fun r => (r.parcelId, r.blockGeoid, r.node)

/-- Squared distances are nonnegative. -/
theorem sqDist_nonneg (p q : ℚ × ℚ) : 0 ≤ sqDist p q :=
  add_nonneg (sq_nonneg _) (sq_nonneg _)

/-- Squared distance vanishes exactly on equal coordinate pairs. -/
theorem sqDist_eq_zero_iff (p q : ℚ × ℚ) : sqDist p q = 0 ↔ p = q := by
  constructor
  · intro h
    simp only [sqDist] at h
    have h1 : (p.1 - q.1) ^ 2 = 0 :=
      le_antisymm (by nlinarith [sq_nonneg (p.2 - q.2)]) (sq_nonneg _)
    have h2 : (p.2 - q.2) ^ 2 = 0 :=
      le_antisymm (by nlinarith [sq_nonneg (p.1 - q.1)]) (sq_nonneg _)
    have e1 : p.1 = q.1 := sub_eq_zero.mp (by nlinarith [h1])
    have e2 : p.2 = q.2 := sub_eq_zero.mp (by nlinarith [h2])
    exact Prod.ext e1 e2
  · intro h
    simp [h, sqDist]

/-- A built index with at least one node answers every query with some id. -/
theorem queryNode_some (idx : SpatialIndex) (q : ℚ × ℚ) (h : idx.nodes ≠ []) :
    ∃ nid, queryNode idx q = some nid := by
  cases hm : idx.metric with
  | planar =>
    obtain ⟨j, r, _, _, _, hnear, _⟩ :=
      minPV_map_spec (fun n => sqDist (n.x, n.y) q) idx.nodes h
    exact ⟨r.osmid, by simp only [queryNode, hm]; exact hnear⟩
  | geodesic =>
    obtain ⟨j, r, _, _, _, hnear, _⟩ :=
      minPV_map_spec (fun n => haversineDist (nodeRad n) (queryRad q)) idx.nodes h
    exact ⟨r.osmid, by simp only [queryNode, hm]; exact hnear⟩

/-- The two-node set of the end-to-end scenario in spec §8. -/
def demoNodes : List NodeRecord :=
  [⟨1, 0, 0⟩, ⟨2, 10, 10⟩]

/-- Claim C1: for every non-empty node set and every query point, the node id
returned by the nearest-neighbor query minimizes the configured distance
metric over all nodes — Euclidean distance on raw coordinates for the planar
`cKDTree` variant, haversine distance on radian (lat, lng) pairs for the
geodesic `BallTree` variant. -/
theorem C1_nearest_minimizes (nodes : List NodeRecord) (q : ℚ × ℚ)
    (h : nodes ≠ []) :
    (∃ r ∈ nodes, planarNode nodes q = some r.osmid ∧
      ∀ n ∈ nodes, euclidDist (r.x, r.y) q ≤ euclidDist (n.x, n.y) q) ∧
    (∃ r ∈ nodes, geodesicNode nodes q = some r.osmid ∧
      ∀ n ∈ nodes,
        haversineDist (nodeRad r) (queryRad q) ≤
          haversineDist (nodeRad n) (queryRad q)) := by
  constructor
  · obtain ⟨j, r, hget, hmem, hmin, hnear, hle⟩ :=
      minPV_map_spec (fun n => sqDist (n.x, n.y) q) nodes h
    refine ⟨r, hmem, hnear, ?_⟩
    intro n hn
    exact Real.sqrt_le_sqrt (by exact_mod_cast hle n hn)
  · obtain ⟨j, r, hget, hmem, hmin, hnear, hle⟩ :=
      minPV_map_spec (fun n => haversineDist (nodeRad n) (queryRad q)) nodes h
    exact ⟨r, hmem, hnear, hle⟩

/-- Concrete instance of C1 on the two-node demo set. -/
theorem C1_nearest_minimizes_witness :
    demoNodes ≠ [] ∧
    ((∃ r ∈ demoNodes, planarNode demoNodes (1/10, 1/10) = some r.osmid ∧
        ∀ n ∈ demoNodes,
          euclidDist (r.x, r.y) (1/10, 1/10) ≤ euclidDist (n.x, n.y) (1/10, 1/10)) ∧
     (∃ r ∈ demoNodes, geodesicNode demoNodes (1/10, 1/10) = some r.osmid ∧
        ∀ n ∈ demoNodes,
          haversineDist (nodeRad r) (queryRad (1/10, 1/10)) ≤
            haversineDist (nodeRad n) (queryRad (1/10, 1/10)))) :=
  ⟨by decide, C1_nearest_minimizes demoNodes (1/10, 1/10) (by decide)⟩

/-- Claim C2: building an index from an empty node set fails with
`EmptyInputError` (so no query can run against it), and every successful
build comes from a non-empty node set and is not degenerate: it stores
exactly the supplied nodes and metric. -/
theorem C2_empty_build_fails (m : Metric) :
    buildIndex m [] = Except.error IndexError.emptyInput ∧
    ∀ nodes idx, buildIndex m nodes = Except.ok idx →
      nodes ≠ [] ∧ idx.nodes = nodes ∧ idx.metric = m := by
  refine ⟨rfl, ?_⟩
  intro nodes idx hok
  by_cases h : nodes.isEmpty
  · simp [buildIndex, h] at hok
  · simp only [buildIndex, h, Bool.false_eq_true, if_false, Except.ok.injEq] at hok
    subst hok
    exact ⟨by simpa using h, rfl, rfl⟩

/-- Concrete instance of C2: a successful build on the demo set. -/
theorem C2_empty_build_fails_witness :
    demoNodes ≠ [] ∧
    (SpatialIndex.mk Metric.planar demoNodes).nodes = demoNodes ∧
    (SpatialIndex.mk Metric.planar demoNodes).metric = Metric.planar :=
  (C2_empty_build_fails Metric.planar).2 demoNodes
    ⟨Metric.planar, demoNodes⟩ (by simp [buildIndex, demoNodes])

/-- Claim C4: querying the same built index twice with the same point yields
the same node id — the embedded query is a function of the index and the
point only, so repeated runs agree, including on tie cases. -/
theorem C4_deterministic (idx : SpatialIndex) (q : ℚ × ℚ)
    (r₁ r₂ : Option ℤ) (h₁ : queryNode idx q = r₁) (h₂ : queryNode idx q = r₂) :
    r₁ = r₂ :=
  h₁.symm.trans h₂

/-- Concrete instance of C4 on an exact tie: the query point (1, 0) is
equidistant from the nodes at (0, 0) and (2, 0), and two runs agree on
`some 1`. -/
theorem C4_deterministic_witness : (some (1 : ℤ) : Option ℤ) = some 1 :=
  C4_deterministic ⟨Metric.planar, [⟨1, 0, 0⟩, ⟨2, 2, 0⟩]⟩ (1, 0) (some 1) (some 1)
    (by norm_num [queryNode, planarNode, nearestBy, minPV, sqDist])
    (by norm_num [queryNode, planarNode, nearestBy, minPV, sqDist])

/-- Claim C6: under either metric variant, the returned node id is the
`osmid` of some node of the original node set. -/
theorem C6_result_in_node_set (nodes : List NodeRecord) (q : ℚ × ℚ)
    (h : nodes ≠ []) :
    (∃ nid, planarNode nodes q = some nid ∧ nid ∈ nodes.map NodeRecord.osmid) ∧
    (∃ nid, geodesicNode nodes q = some nid ∧ nid ∈ nodes.map NodeRecord.osmid) := by
  constructor
  · obtain ⟨j, r, hget, hmem, hmin, hnear, hle⟩ :=
      minPV_map_spec (fun n => sqDist (n.x, n.y) q) nodes h
    exact ⟨r.osmid, hnear, List.mem_map_of_mem NodeRecord.osmid hmem⟩
  · obtain ⟨j, r, hget, hmem, hmin, hnear, hle⟩ :=
      minPV_map_spec (fun n => haversineDist (nodeRad n) (queryRad q)) nodes h
    exact ⟨r.osmid, hnear, List.mem_map_of_mem NodeRecord.osmid hmem⟩

/-- Concrete instance of C6 on the two-node demo set. -/
theorem C6_result_in_node_set_witness :
    (∃ nid, planarNode demoNodes (5, 5) = some nid ∧
      nid ∈ demoNodes.map NodeRecord.osmid) ∧
    (∃ nid, geodesicNode demoNodes (5, 5) = some nid ∧
      nid ∈ demoNodes.map NodeRecord.osmid) :=
  C6_result_in_node_set demoNodes (5, 5) (by decide)

/-- Claim C9: in the end-to-end notebook flow, the planar `cKDTree` node
assignment of cell 14 is entirely overwritten by the geodesic `BallTree`
assignment of cell 18, so every `node_id` in the saved output reflects the
geodesic metric, and the saved table is the same as if the planar assignment
had never run. -/
theorem C9_geodesic_overwrites_planar (nodes : List NodeRecord) (t : List Row) :
    dfSave (assignGeodesic nodes (assignPlanar nodes t)) =
      t.map (fun r => (r.parcelId, r.blockGeoid, geodesicNode nodes (r.x, r.y))) ∧
    dfSave (assignGeodesic nodes (assignPlanar nodes t)) =
      dfSave (assignGeodesic nodes t) := by
  constructor <;>
    simp [dfSave, assignGeodesic, assignPlanar, List.map_map, Function.comp]

/-- Claim C10: the block-id attachment of cell 8 is a left join keyed on
parcel id: every parcel row is retained, in order, both in the merged table
and in the saved output, and a parcel whose id is absent from the lookup
table gets a null `block_geoid` instead of being dropped. -/
theorem C10_left_join_semantics (parcels : List Parcel)
    (lookup : List (ℤ × String)) (nodes : List NodeRecord) :
    (mergeBlocks parcels lookup).map Row.parcelId = parcels.map Parcel.parcelId ∧
    (dfSave (assignGeodesic nodes
        (assignPlanar nodes (mergeBlocks parcels lookup)))).map Prod.fst =
      parcels.map Parcel.parcelId ∧
    ∀ (i : ℕ) (p : Parcel), parcels[i]? = some p →
      ∃ r : Row, (mergeBlocks parcels lookup)[i]? = some r ∧
        r.parcelId = p.parcelId ∧
        ((∀ kv ∈ lookup, kv.1 ≠ p.parcelId) → r.blockGeoid = none) := by
  refine ⟨?_, ?_, ?_⟩
  · simp [mergeBlocks, List.map_map, Function.comp]
  · simp [mergeBlocks, dfSave, assignGeodesic, assignPlanar, List.map_map,
      Function.comp]
  · intro i p hp
    refine ⟨{ parcelId := p.parcelId, x := p.x, y := p.y,
              blockGeoid := (lookup.find? fun kv => kv.1 == p.parcelId).map Prod.snd,
              node := none }, ?_, rfl, ?_⟩
    · simp [mergeBlocks, List.getElem?_map, hp]
    · intro habsent
      have hfind : (lookup.find? fun kv => kv.1 == p.parcelId) = none := by
        rw [List.find?_eq_none]
        intro kv hkv
        simpa using habsent kv hkv
      simp [hfind]

/-- Concrete instance of C10: a parcel whose id has no row in the lookup
table is kept with a null block id. -/
theorem C10_left_join_semantics_witness :
    ∃ r : Row, (mergeBlocks [⟨100, 0, 0⟩] [(200, "b")])[0]? = some r ∧
      r.parcelId = (100 : ℤ) ∧
      ((∀ kv ∈ [((200 : ℤ), "b")], kv.1 ≠ (100 : ℤ)) → r.blockGeoid = none) := by
  have h := (C10_left_join_semantics [⟨100, 0, 0⟩] [(200, "b")] demoNodes).2.2
    0 ⟨100, 0, 0⟩ rfl
  simpa using h

/-- Claim C3: in every query batch against a built (non-empty) index, a query
point with a non-finite coordinate fails with `InvalidCoordinateError` and is
excluded from the successful results, while every query with finite
coordinates is still answered with some node id; the batch keeps one entry
per query, so no malformed point aborts the remaining queries. -/
theorem C3_invalid_coordinate_isolated (idx : SpatialIndex)
    (qs : List (ℤ × FCoord × FCoord)) (h : idx.nodes ≠ []) :
    (runBatch idx qs).length = qs.length ∧
    ∀ (i : ℕ) (pid : ℤ) (fx fy : FCoord), qs[i]? = some (pid, fx, fy) →
      ((fx.isFinite && fy.isFinite) = false →
        (runBatch idx qs)[i]? =
          some (pid, Except.error IndexError.invalidCoordinate)) ∧
      (∀ qx qy : ℚ, fx = FCoord.finite qx → fy = FCoord.finite qy →
        ∃ nid : ℤ, (runBatch idx qs)[i]? = some (pid, Except.ok nid)) := by
  refine ⟨by simp [runBatch], ?_⟩
  intro i pid fx fy hq
  constructor
  · intro hnf
    cases fx with
    | finite qx =>
      cases fy with
      | finite qy => simp [FCoord.isFinite] at hnf
      | nan => simp [runBatch, List.getElem?_map, hq]
      | posInf => simp [runBatch, List.getElem?_map, hq]
      | negInf => simp [runBatch, List.getElem?_map, hq]
    | nan => simp [runBatch, List.getElem?_map, hq]
    | posInf => simp [runBatch, List.getElem?_map, hq]
    | negInf => simp [runBatch, List.getElem?_map, hq]
  · intro qx qy hfx hfy
    subst hfx
    subst hfy
    obtain ⟨nid, hnid⟩ := queryNode_some idx (qx, qy) h
    exact ⟨nid, by simp [runBatch, List.getElem?_map, hq, hnid]⟩

/-- A two-query batch whose first query carries a NaN x coordinate. -/
def demoBatch : List (ℤ × FCoord × FCoord) :=
  [(7, FCoord.nan, FCoord.finite 0), (8, FCoord.finite 0, FCoord.finite 0)]

/-- Concrete instance of C3: in a two-query batch, the NaN query is rejected
with `InvalidCoordinateError` and the well-formed query is still answered. -/
theorem C3_invalid_coordinate_isolated_witness :
    (runBatch ⟨Metric.planar, demoNodes⟩ demoBatch)[0]? =
      some ((7 : ℤ), Except.error IndexError.invalidCoordinate) ∧
    ∃ nid : ℤ, (runBatch ⟨Metric.planar, demoNodes⟩ demoBatch)[1]? =
      some ((8 : ℤ), Except.ok nid) :=
  ⟨((C3_invalid_coordinate_isolated ⟨Metric.planar, demoNodes⟩ demoBatch
      (by decide)).2 0 7 FCoord.nan (FCoord.finite 0) rfl).1 (by decide),
   ((C3_invalid_coordinate_isolated ⟨Metric.planar, demoNodes⟩ demoBatch
      (by decide)).2 1 8 (FCoord.finite 0) (FCoord.finite 0) rfl).2 0 0 rfl rfl⟩

/-- Degrees to radians maps 0 to 0. -/
theorem deg2rad_zero : deg2rad 0 = 0 := by
  simp [deg2rad]

/-- Degrees to radians maps 90 to π/2. -/
theorem deg2rad_ninety : deg2rad 90 = Real.pi / 2 := by
  rw [deg2rad]
  push_cast
  ring

/-- The square root of one half. -/
theorem sqrt_one_half : Real.sqrt (1 / 2) = Real.sqrt 2 / 2 := by
  rw [show (1 / 2 : ℝ) = (Real.sqrt 2 / 2) ^ 2 by
    rw [div_pow, Real.sq_sqrt (by norm_num : (0 : ℝ) ≤ 2)]
    norm_num]
  exact Real.sqrt_sq (by positivity)

/-- Doubling the arcsine of √(1/2) gives a right angle. -/
theorem two_arcsin_sqrt_one_half :
    2 * Real.arcsin (Real.sqrt (1 / 2)) = Real.pi / 2 := by
  have hs : Real.sqrt 2 / 2 = Real.sin (Real.pi / 4) := Real.sin_pi_div_four.symm
  rw [sqrt_one_half, hs,
    Real.arcsin_sin (by linarith [Real.pi_pos]) (by linarith [Real.pi_pos])]
  ring

/-- The squared sine of π/4 is one half. -/
theorem sin_sq_pi_div_four : Real.sin (Real.pi / 4) ^ 2 = 1 / 2 := by
  rw [Real.sin_pi_div_four, div_pow, Real.sq_sqrt (by norm_num : (0 : ℝ) ≤ 2)]
  norm_num

/-- Haversine distance of a point to itself is zero. -/
theorem haversineDist_self (p : ℝ × ℝ) : haversineDist p p = 0 := by
  simp [haversineDist]

/-- Haversine distance from the equator point (0, 0) to the pole-crossing
point (π/2, π) is π/2 (a quarter of a great circle). -/
theorem haversineDist_pole :
    haversineDist (0, 0) (Real.pi / 2, Real.pi) = Real.pi / 2 := by
  simp only [haversineDist]
  rw [show (Real.pi / 2 - 0) / 2 = Real.pi / 4 by ring,
    show (Real.pi - 0) / 2 = Real.pi / 2 by ring,
    Real.cos_pi_div_two, Real.cos_zero, sin_sq_pi_div_four]
  rw [show (1 / 2 + 1 * 0 * Real.sin (Real.pi / 2) ^ 2 : ℝ) = 1 / 2 by ring]
  exact two_arcsin_sqrt_one_half

/-- Haversine distance between two equator points a quarter turn of
longitude apart is π/2. -/
theorem haversineDist_lng_sep :
    haversineDist (0, Real.pi / 2) (0, 0) = Real.pi / 2 := by
  simp only [haversineDist]
  rw [show (0 - 0 : ℝ) / 2 = 0 by ring,
    show (0 - Real.pi / 2) / 2 = -(Real.pi / 4) by ring,
    Real.sin_zero, Real.cos_zero, Real.sin_neg]
  rw [show ((0 : ℝ) ^ 2 + 1 * 1 * (-Real.sin (Real.pi / 4)) ^ 2 : ℝ) =
        Real.sin (Real.pi / 4) ^ 2 by ring,
    sin_sq_pi_div_four]
  exact two_arcsin_sqrt_one_half

/-- Straight-line distance on the same angular coordinates is at least π. -/
theorem angularEuclid_pole_ge :
    Real.pi ≤ angularEuclid (0, 0) (Real.pi / 2, Real.pi) := by
  simp only [angularEuclid]
  calc Real.pi = Real.sqrt (Real.pi ^ 2) := (Real.sqrt_sq Real.pi_pos.le).symm
    _ ≤ Real.sqrt ((Real.pi / 2 - 0) ^ 2 + (Real.pi - 0) ^ 2) :=
        Real.sqrt_le_sqrt (by nlinarith [sq_nonneg (Real.pi / 2)])

/-- Claim C5: under the geodesic variant, node and query coordinates are
converted from degrees of (x, y) = (longitude, latitude) to radians of
(latitude, longitude) before indexing and querying, the query minimizes the
haversine great-circle distance over the converted coordinates, and that
metric is not the straight-line distance on the angular coordinates (the two
differ at (0, 0) vs (π/2, π)). -/
theorem C5_geodesic_conversion_and_metric (nodes : List NodeRecord)
    (q : ℚ × ℚ) (h : nodes ≠ []) :
    (∀ n : NodeRecord,
      nodeRad n = ((n.y : ℝ) * Real.pi / 180, (n.x : ℝ) * Real.pi / 180)) ∧
    queryRad q = ((q.2 : ℝ) * Real.pi / 180, (q.1 : ℝ) * Real.pi / 180) ∧
    (∃ r ∈ nodes, geodesicNode nodes q = some r.osmid ∧
      ∀ m ∈ nodes,
        haversineDist (nodeRad r) (queryRad q) ≤
          haversineDist (nodeRad m) (queryRad q)) ∧
    haversineDist (0, 0) (Real.pi / 2, Real.pi) ≠
      angularEuclid (0, 0) (Real.pi / 2, Real.pi) := by
  refine ⟨fun n => rfl, rfl, ?_, ?_⟩
  · obtain ⟨j, r, hget, hmem, hmin, hnear, hle⟩ :=
      minPV_map_spec (fun n => haversineDist (nodeRad n) (queryRad q)) nodes h
    exact ⟨r, hmem, hnear, hle⟩
  · rw [haversineDist_pole]
    intro hcontra
    have hge := angularEuclid_pole_ge
    rw [← hcontra] at hge
    linarith [Real.pi_pos]

/-- Concrete instance of C5 on the two-node demo set. -/
theorem C5_geodesic_conversion_and_metric_witness :
    (∀ n : NodeRecord,
      nodeRad n = ((n.y : ℝ) * Real.pi / 180, (n.x : ℝ) * Real.pi / 180)) ∧
    queryRad (5, 5) = (((5 : ℚ) : ℝ) * Real.pi / 180, ((5 : ℚ) : ℝ) * Real.pi / 180) ∧
    (∃ r ∈ demoNodes, geodesicNode demoNodes (5, 5) = some r.osmid ∧
      ∀ m ∈ demoNodes,
        haversineDist (nodeRad r) (queryRad (5, 5)) ≤
          haversineDist (nodeRad m) (queryRad (5, 5))) ∧
    haversineDist (0, 0) (Real.pi / 2, Real.pi) ≠
      angularEuclid (0, 0) (Real.pi / 2, Real.pi) :=
  C5_geodesic_conversion_and_metric demoNodes (5, 5) (by decide)

/-- Counterexample to claim C7 as stated: in the node set
{(id 1 at (0,0)), (id 2 at (0,0))}, querying the planar index with node 2's
own coordinates returns id 1, not node 2's own id (any deterministic query
must give one answer at (0, 0), so it cannot return each duplicate's own
id). -/
theorem C7_counterexample :
    ((⟨2, 0, 0⟩ : NodeRecord) ∈ ([⟨1, 0, 0⟩, ⟨2, 0, 0⟩] : List NodeRecord)) ∧
    planarNode [⟨1, 0, 0⟩, ⟨2, 0, 0⟩]
      ((⟨2, 0, 0⟩ : NodeRecord).x, (⟨2, 0, 0⟩ : NodeRecord).y) = some 1 ∧
    (1 : ℤ) ≠ (⟨2, 0, 0⟩ : NodeRecord).osmid := by
  refine ⟨by decide, ?_, by decide⟩
  norm_num [planarNode, nearestBy, minPV, sqDist]

/-- Claim C7 as amended: if node n's coordinates are not shared by any other
node of the set, querying the planar index with n's own coordinates returns
n's own id, and the reported (squared) distance is 0. -/
theorem C7_amended_self_query (nodes : List NodeRecord) (n : NodeRecord)
    (hn : n ∈ nodes)
    (hu : ∀ m ∈ nodes, (m.x, m.y) = (n.x, n.y) → m = n) :
    planarNode nodes (n.x, n.y) = some n.osmid ∧
    ∃ j : ℕ, planarQuery nodes (n.x, n.y) = some (j, 0) := by
  have hdn : sqDist (n.x, n.y) (n.x, n.y) = 0 := (sqDist_eq_zero_iff _ _).mpr rfl
  constructor
  · apply nearestBy_unique _ n hn
    intro m hm hmne
    rw [hdn]
    rcases lt_or_eq_of_le (sqDist_nonneg (m.x, m.y) (n.x, n.y)) with hlt | heq
    · exact hlt
    · exact absurd (hu m hm ((sqDist_eq_zero_iff _ _).mp heq.symm)) hmne
  · obtain ⟨j, r, hget, hmem, hmin, hnear, hle⟩ :=
      minPV_map_spec (fun m => sqDist (m.x, m.y) (n.x, n.y)) nodes
        (List.ne_nil_of_mem hn)
    refine ⟨j, ?_⟩
    have hr0 : sqDist (r.x, r.y) (n.x, n.y) = 0 :=
      le_antisymm (hdn ▸ hle n hn) (sqDist_nonneg _ _)
    simp only [planarQuery]
    rw [hmin, hr0]

/-- Concrete instance of amended C7: querying node 1's own coordinates in the
demo set returns id 1 at distance 0. -/
theorem C7_amended_self_query_witness :
    planarNode demoNodes
      ((⟨1, 0, 0⟩ : NodeRecord).x, (⟨1, 0, 0⟩ : NodeRecord).y) =
      some (⟨1, 0, 0⟩ : NodeRecord).osmid ∧
    ∃ j : ℕ, planarQuery demoNodes
      ((⟨1, 0, 0⟩ : NodeRecord).x, (⟨1, 0, 0⟩ : NodeRecord).y) = some (j, 0) :=
  C7_amended_self_query demoNodes ⟨1, 0, 0⟩ (by decide) (by decide)

/-- Counterexample to claim C8 as stated: the query point (1, 0) is exactly
equidistant from the nodes at (0, 0) and (2, 0), and the index built from the
reversed node order answers it with the other node id. -/
theorem C8_counterexample :
    ([⟨1, 0, 0⟩, ⟨2, 2, 0⟩] : List NodeRecord).Perm [⟨2, 2, 0⟩, ⟨1, 0, 0⟩] ∧
    sqDist (0, 0) (1, 0) = sqDist (2, 0) (1, 0) ∧
    planarNode [⟨1, 0, 0⟩, ⟨2, 2, 0⟩] (1, 0) = some 1 ∧
    planarNode [⟨2, 2, 0⟩, ⟨1, 0, 0⟩] (1, 0) = some 2 ∧
    planarNode [⟨1, 0, 0⟩, ⟨2, 2, 0⟩] (1, 0) ≠
      planarNode [⟨2, 2, 0⟩, ⟨1, 0, 0⟩] (1, 0) := by
  have h1 : planarNode [⟨1, 0, 0⟩, ⟨2, 2, 0⟩] (1, 0) = some 1 := by
    norm_num [planarNode, nearestBy, minPV, sqDist]
  have h2 : planarNode [⟨2, 2, 0⟩, ⟨1, 0, 0⟩] (1, 0) = some 2 := by
    norm_num [planarNode, nearestBy, minPV, sqDist]
  refine ⟨by decide, by norm_num [sqDist], h1, h2, ?_⟩
  rw [h1, h2]
  decide

/-- Claim C8 as amended: for every query point whose nearest node is unique
under the respective metric (no exact distance tie), the indexes built from
any two orderings of the node set answer the query identically, under both
the planar and the geodesic variant. -/
theorem C8_amended_order_insensitive (nodes nodes' : List NodeRecord)
    (q : ℚ × ℚ) (hperm : nodes.Perm nodes') (np ng : NodeRecord)
    (hnp : np ∈ nodes) (hng : ng ∈ nodes)
    (hpu : ∀ m ∈ nodes, m ≠ np →
      sqDist (np.x, np.y) q < sqDist (m.x, m.y) q)
    (hgu : ∀ m ∈ nodes, m ≠ ng →
      haversineDist (nodeRad ng) (queryRad q) <
        haversineDist (nodeRad m) (queryRad q)) :
    planarNode nodes q = planarNode nodes' q ∧
    geodesicNode nodes q = geodesicNode nodes' q := by
  constructor
  · have h1 := nearestBy_unique (fun m => sqDist (m.x, m.y) q) np hnp hpu
    have h2 := nearestBy_unique (fun m => sqDist (m.x, m.y) q) np
      (hperm.mem_iff.mp hnp) (fun m hm => hpu m (hperm.mem_iff.mpr hm))
    exact h1.trans h2.symm
  · have h1 := nearestBy_unique
      (fun m => haversineDist (nodeRad m) (queryRad q)) ng hng hgu
    have h2 := nearestBy_unique
      (fun m => haversineDist (nodeRad m) (queryRad q)) ng
      (hperm.mem_iff.mp hng) (fun m hm => hgu m (hperm.mem_iff.mpr hm))
    exact h1.trans h2.symm

/-- Concrete instance of amended C8: a tie-free query answered identically by
the index built from the node list and from its reversal, under both
variants. -/
theorem C8_amended_order_insensitive_witness :
    planarNode [⟨1, 0, 0⟩, ⟨2, 90, 0⟩] (0, 0) =
      planarNode [⟨2, 90, 0⟩, ⟨1, 0, 0⟩] (0, 0) ∧
    geodesicNode [⟨1, 0, 0⟩, ⟨2, 90, 0⟩] (0, 0) =
      geodesicNode [⟨2, 90, 0⟩, ⟨1, 0, 0⟩] (0, 0) :=
  C8_amended_order_insensitive [⟨1, 0, 0⟩, ⟨2, 90, 0⟩] [⟨2, 90, 0⟩, ⟨1, 0, 0⟩]
    (0, 0) (by decide) ⟨1, 0, 0⟩ ⟨1, 0, 0⟩ (by decide) (by decide)
    (by
      intro m hm hne
      rcases List.mem_cons.mp hm with hc | hc
      · exact absurd hc hne
      · have hm2 : m = ⟨2, 90, 0⟩ := by simpa using hc
        subst hm2
        norm_num [sqDist])
    (by
      intro m hm hne
      rcases List.mem_cons.mp hm with hc | hc
      · exact absurd hc hne
      · have hm2 : m = ⟨2, 90, 0⟩ := by simpa using hc
        subst hm2
        show haversineDist (nodeRad ⟨1, 0, 0⟩) (queryRad (0, 0)) <
          haversineDist (nodeRad ⟨2, 90, 0⟩) (queryRad (0, 0))
        simp only [nodeRad, queryRad]
        rw [deg2rad_zero, deg2rad_ninety]
        rw [haversineDist_self, haversineDist_lng_sep]
        linarith [Real.pi_pos])

end ParcelsAttach
